import Mathlib

/-!
Shallow embedding of the text-summarizer REST service (`app.py`).

The store is a list of `Summary` rows; the SQLite autoincrement primary key
is modelled by `nextId` (one more than the largest existing id).  Wall-clock
timestamps (`datetime.utcnow`) become a `now : Nat` argument threaded into
each handler.  The Hugging Face pipeline is an opaque collaborator, modelled
as a function returning `Except String String` (error message or generated
summary).  Python's `ZeroDivisionError` inside the `try` blocks is modelled
by an explicit zero test on the denominator's word count, and `round(x, 2)`
by rational rounding to two decimals, halves to even.
-/

namespace TextSummarizer

/-- Count the maximal runs of non-whitespace characters; `inWord` records
whether the previous character belonged to a word. -/
def countWordsAux : List Char → Bool → Nat
  | [], _ => 0
  | c :: cs, inWord =>
    if c.isWhitespace then countWordsAux cs false
    else (if inWord then 0 else 1) + countWordsAux cs true

/-- Number of whitespace-separated words of a string, as the length of Python
`str.split()` with no arguments: maximal whitespace runs separate words, and
leading/trailing whitespace contributes no empty words. -/
def wordCount (s : String) : Nat :=
  countWordsAux s.data false

/-- Round a rational to the nearest integer, halves to even
(the rounding of Python's built-in `round`).  Computed on the reduced
numerator and denominator: `f` is the floor and `r` the fractional remainder. -/
def roundHalfEven (q : ℚ) : ℤ :=
  let n := q.num
  let d : ℤ := (q.den : ℤ)
  let f := Int.fdiv n d
  let r := n - f * d
  if 2 * r < d then f
  else if d < 2 * r then f + 1
  else if f % 2 = 0 then f else f + 1

/-- Python `round(x, 2)`: round to two decimal places, halves to even.
`mkRat (100 * q.num) q.den` is the exact rational `q * 100`, written with
`mkRat` so that the definition evaluates by kernel reduction. -/
def round2 (q : ℚ) : ℚ := mkRat (roundHalfEven (mkRat (100 * q.num) q.den)) 100

/-- The exact rational value of the Python expression `a / b * 100` on word
counts `a` and `b` (for `b ≠ 0`), written with `mkRat` so it evaluates. -/
def ratioPct (a b : Nat) : ℚ := mkRat (a * 100) b

/-- One row of the `summary` table. -/
structure Summary where
  id : Nat
  original_text : String
  summary_text : String
  created_at : Nat
  updated_at : Nat
  title : String
  compression_ratio : ℚ
deriving DecidableEq, Repr

/-- The summarization provider: `(text, max_length, min_length)` to either an
error message or the generated summary text. -/
def Provider : Type := String → Nat → Nat → Except String String

/-- JSON body of a POST `/api/summaries/` request; every field is optional in
the incoming JSON. -/
structure CreateReq where
  text : Option String
  max_length : Option Nat
  min_length : Option Nat
  title : Option String
deriving DecidableEq, Repr

/-- JSON body of a PUT `/api/summaries/id` request. -/
structure UpdateReq where
  text : Option String
  title : Option String
  max_length : Option Nat
  min_length : Option Nat
deriving DecidableEq, Repr

/-- A JSON response body: an error object, a serialized record, or a message. -/
inductive Body where
  | errorBody (msg : String)
  | recordBody (r : Summary)
  | messageBody (msg : String)
deriving DecidableEq, Repr

/-- Id assigned by SQLite to a freshly inserted row: one more than the
largest id currently in the table. -/
def nextId (store : List Summary) : Nat :=
  (store.map (fun r => r.id)).foldr max 0 + 1

/-- POST `/api/summaries/` (`create_summary` in `app.py`).  Returns the new
store together with the HTTP status and response body.  `data = none` models a
missing/empty JSON body (`not data` in Python). -/
def create_summary (store : List Summary) (data : Option CreateReq)
    (provider : Provider) (now : Nat) : List Summary × Nat × Body :=
  match data with
  | none => (store, 400, .errorBody "No text provided")
  | some req =>
    match req.text with
    | none => (store, 400, .errorBody "No text provided")
    | some t =>
      if wordCount t < 10 then
        (store, 200, .errorBody "this text is too short to summarize")
      else
        match provider t (req.max_length.getD 130) (req.min_length.getD 30) with
        | .error e => (store, 500, .errorBody e)
        | .ok generated_summary =>
          if wordCount t = 0 then
            (store, 500, .errorBody "division by zero")
          else
            let compression_ratio :=
              round2 (ratioPct (wordCount generated_summary) (wordCount t))
            let new_summary : Summary :=
              { id := nextId store, original_text := t,
                summary_text := generated_summary,
                created_at := now, updated_at := now,
                title := req.title.getD "Untitled",
                compression_ratio := compression_ratio }
            (store ++ [new_summary], 201, .recordBody new_summary)

/-- Descending order on creation time, the sort key of the list endpoint. -/
def createdDesc (a b : Summary) : Prop := b.created_at ≤ a.created_at

instance : DecidableRel createdDesc := fun a b => Nat.decLe b.created_at a.created_at

instance : IsTotal Summary createdDesc :=
  ⟨fun a b => (Nat.le_total b.created_at a.created_at).imp id id⟩

instance : IsTrans Summary createdDesc :=
  ⟨fun _ _ _ hab hbc => Nat.le_trans hbc hab⟩

/-- GET `/api/summaries` (`get_summaries` in `app.py`): full scan ordered by
`created_at` descending. -/
def get_summaries (store : List Summary) : List Summary :=
  List.insertionSort createdDesc store

/-- GET `/api/summaries/id` (`get_summary` in `app.py`): `get_or_404`. -/
def get_summary (store : List Summary) (summary_id : Nat) : Nat × Body :=
  match store.find? (fun r => r.id == summary_id) with
  | some s => (200, .recordBody s)
  | none => (404, .errorBody "Not Found")

/-- PUT `/api/summaries/id` (`update_summary` in `app.py`).  The `try` block
around the provider call and the ratio computation is modelled by
`Except`: a provider failure or a `ZeroDivisionError` returns 500 before any
commit, so the store is returned unchanged. -/
def update_summary (store : List Summary) (summary_id : Nat) (data : UpdateReq)
    (provider : Provider) (now : Nat) : List Summary × Nat × Body :=
  match store.find? (fun r => r.id == summary_id) with
  | none => (store, 404, .errorBody "Not Found")
  | some s =>
    let afterText : Except String Summary :=
      match data.text with
      | none => .ok s
      | some t =>
        match provider t (data.max_length.getD 130) (data.min_length.getD 30) with
        | .error e => .error e
        | .ok generated_summary =>
          if wordCount t = 0 then .error "division by zero"
          else .ok { s with
            original_text := t,
            summary_text := generated_summary,
            compression_ratio :=
              round2 (ratioPct (wordCount generated_summary) (wordCount t)) }
    match afterText with
    | .error e => (store, 500, .errorBody e)
    | .ok s1 =>
      let s2 := match data.title with
        | some ti => { s1 with title := ti }
        | none => s1
      let s3 := { s2 with updated_at := now }
      (store.map (fun r => if r.id == summary_id then s3 else r), 200, .recordBody s3)

/-- DELETE `/api/summaries/id` (`delete_summary` in `app.py`): `get_or_404`
then hard delete. -/
def delete_summary (store : List Summary) (summary_id : Nat) :
    List Summary × Nat × Body :=
  match store.find? (fun r => r.id == summary_id) with
  | none => (store, 404, .errorBody "Not Found")
  | some _ =>
    (store.filter (fun r => !(r.id == summary_id)), 200,
      .messageBody "Summary deleted successfully")

/-- Body of the health-check response. -/
structure HealthBody where
  status : String
  model_loaded : Bool
  gpu_available : Bool
  database_connected : Bool
deriving DecidableEq, Repr

/-- GET `/api/health` (`health_check` in `app.py`).  `dbProbe` is the outcome
of the `SELECT 1` round trip; its failure is caught by the `try`/`except` and
reported as `database_connected = false`. -/
def health_check (dbProbe : Except String Unit) (model_loaded gpu_available : Bool) :
    Nat × HealthBody :=
  let db_status := match dbProbe with
    | .ok _ => true
    | .error _ => false
  (200, { status := "healthy", model_loaded := model_loaded,
          gpu_available := gpu_available, database_connected := db_status })

/-- One client request against the service, for reachability traces. -/
inductive Op where
  | createOp (data : Option CreateReq)
  | updateOp (summary_id : Nat) (data : UpdateReq)
  | deleteOp (summary_id : Nat)

/-- State transition of one request: the store after the handler commits. -/
def applyOp (provider : Provider) (store : List Summary) (op : Op) (now : Nat) :
    List Summary :=
  match op with
  | .createOp d => (create_summary store d provider now).1
  | .updateOp i d => (update_summary store i d provider now).1
  | .deleteOp i => (delete_summary store i).1

/-- Store states reachable from the empty table, tagged with the wall-clock
time of the last request; the clock never goes backwards. -/
inductive Reachable : Nat → List Summary → Prop where
  | init : Reachable 0 []
  | step {T : Nat} {store : List Summary} (op : Op) (provider : Provider) (now : Nat) :
      Reachable T store → T ≤ now → Reachable now (applyOp provider store op now)

/-- A sequence of create requests (body and wall-clock time), applied in order
to the store; the trace behind "listing after N creates". -/
def runCreates (store : List Summary) (reqs : List (CreateReq × Nat))
    (provider : Provider) : List Summary :=
  reqs.foldl (fun s rq => (create_summary s (some rq.1) provider rq.2).1) store

/-! ### Concrete sample data, used to instantiate the theorems below -/

/-- A ten-word input text. -/
def sampleText : String := "one two three four five six seven eight nine ten"

/-- A provider that always succeeds with a fixed five-word summary. -/
def sampleProvider : Provider := fun _ _ _ => Except.ok "a much shorter generated summary"

/-- A provider that always fails. -/
def failProvider : Provider := fun _ _ _ => Except.error "CUDA out of memory"

/-- The record produced by a successful create of `sampleText` at time 5:
five summary words over ten original words give a ratio of 50. -/
def sampleRec : Summary :=
  { id := 1, original_text := sampleText,
    summary_text := "a much shorter generated summary", created_at := 5, updated_at := 5,
    title := "Untitled", compression_ratio := 50 }

/-- A second record, created later than `sampleRec`. -/
def sampleRec2 : Summary :=
  { sampleRec with id := 2, created_at := 7, updated_at := 7 }

/-- Store invariant carried along traces: ids are pairwise distinct, and every
record's timestamps are ordered and bounded by the clock `T` of the last
request. -/
def StoreInv (T : Nat) (store : List Summary) : Prop :=
  (store.map (fun r => r.id)).Nodup
  ∧ ∀ r ∈ store, r.created_at ≤ r.updated_at ∧ r.updated_at ≤ T

/-! ### Helper lemmas -/

/-- `ratioPct a b` is the rational value of `a / b * 100`. -/
theorem ratioPct_eq_div (a b : Nat) :
    ratioPct a b = (a : ℚ) / (b : ℚ) * 100 := by
  unfold ratioPct
  rw [Rat.mkRat_eq_div]
  push_cast
  ring

/-- A record found by id has that id. -/
theorem find?_id_eq {store : List Summary} {i : Nat} {s : Summary}
    (h : store.find? (fun r => r.id == i) = some s) : s.id = i := by
  have h2 := List.find?_some h
  simpa using h2

/-! ### Claims -/

/-- C1: for every successful create (status 201), the returned record's
`compression_ratio` equals `round(wordCount summary / wordCount original * 100, 2)`
and the record is persisted; the same formula holds for the record stored by
every successful update that replaces the text. -/
theorem create_and_update_compression_ratio :
    (∀ store data provider now store2 r,
      create_summary store data provider now = (store2, 201, Body.recordBody r) →
      r.compression_ratio
          = round2 ((wordCount r.summary_text : ℚ) / (wordCount r.original_text : ℚ) * 100)
        ∧ r ∈ store2) ∧
    (∀ store summary_id data provider now store2 r t,
      data.text = some t →
      update_summary store summary_id data provider now = (store2, 200, Body.recordBody r) →
      r.compression_ratio
          = round2 ((wordCount r.summary_text : ℚ) / (wordCount r.original_text : ℚ) * 100)
        ∧ r ∈ store2) := by
  constructor
  · intro store data provider now store2 r hc
    cases data with
    | none => unfold create_summary at hc; simp at hc
    | some req =>
      unfold create_summary at hc
      dsimp only at hc
      cases htext : req.text with
      | none => rw [htext] at hc; simp at hc
      | some t =>
        rw [htext] at hc
        dsimp only at hc
        by_cases hshort : wordCount t < 10
        · rw [if_pos hshort] at hc; simp at hc
        · rw [if_neg hshort] at hc
          cases hprov : provider t (req.max_length.getD 130) (req.min_length.getD 30) with
          | error e => rw [hprov] at hc; simp at hc
          | ok gen =>
            rw [hprov] at hc
            dsimp only at hc
            have hz : ¬ wordCount t = 0 := by omega
            rw [if_neg hz] at hc
            simp only [Prod.mk.injEq, Body.recordBody.injEq] at hc
            obtain ⟨hstore, -, hr⟩ := hc
            subst hstore hr
            refine ⟨?_, by simp⟩
            simp [ratioPct_eq_div]
  · intro store summary_id data provider now store2 r t htext hu
    unfold update_summary at hu
    cases hfind : store.find? (fun x => x.id == summary_id) with
    | none => rw [hfind] at hu; simp at hu
    | some s =>
      rw [hfind] at hu
      dsimp only at hu
      rw [htext] at hu
      dsimp only at hu
      cases hprov : provider t (data.max_length.getD 130) (data.min_length.getD 30) with
      | error e => rw [hprov] at hu; simp at hu
      | ok gen =>
        rw [hprov] at hu
        dsimp only at hu
        by_cases hz : wordCount t = 0
        · rw [if_pos hz] at hu; simp at hu
        · rw [if_neg hz] at hu
          simp only [Prod.mk.injEq, Body.recordBody.injEq] at hu
          obtain ⟨hstore, -, hr⟩ := hu
          cases htitle : data.title with
          | none =>
            rw [htitle] at hstore hr
            subst hstore
            constructor
            · rw [← hr]; simp [ratioPct_eq_div]
            · rw [List.mem_map]
              refine ⟨s, List.mem_of_find?_eq_some hfind, ?_⟩
              rw [show (s.id == summary_id) = true by simpa using find?_id_eq hfind]
              simpa using hr
          | some ti =>
            rw [htitle] at hstore hr
            subst hstore
            constructor
            · rw [← hr]; simp [ratioPct_eq_div]
            · rw [List.mem_map]
              refine ⟨s, List.mem_of_find?_eq_some hfind, ?_⟩
              rw [show (s.id == summary_id) = true by simpa using find?_id_eq hfind]
              simpa using hr

/-- Witness for C1: a concrete successful create of the ten-word `sampleText`,
whose five-word summary yields the stored and returned ratio `50`. -/
theorem create_and_update_compression_ratio_witness :
    sampleRec.compression_ratio
        = round2 ((wordCount sampleRec.summary_text : ℚ) / (wordCount sampleRec.original_text : ℚ) * 100)
      ∧ sampleRec ∈ [sampleRec] :=
  create_and_update_compression_ratio.1 [] (some ⟨some sampleText, none, none, none⟩)
    sampleProvider 5 [sampleRec] sampleRec (by decide)

/-- C2 counterexample: the nine-word-or-fewer create path does not reject with
a 4xx status.  On the concrete two-word text "too short" the handler answers
with status 200 (an error body, no record persisted), so the claimed client
error status is false. -/
theorem short_text_create_not_4xx :
    (create_summary [] (some ⟨some "too short", none, none, none⟩) sampleProvider 0).2.1 = 200
    ∧ ¬(400 ≤ (create_summary [] (some ⟨some "too short", none, none, none⟩) sampleProvider 0).2.1
        ∧ (create_summary [] (some ⟨some "too short", none, none, none⟩) sampleProvider 0).2.1 < 500)
    ∧ (create_summary [] (some ⟨some "too short", none, none, none⟩) sampleProvider 0).1 = [] := by
  decide

/-- C2 (amended): a create request whose text has fewer than 10 words is
rejected with a 200 response carrying the error body "this text is too short
to summarize", and no record is created or persisted. -/
theorem short_text_create_returns_200_error
    (store : List Summary) (req : CreateReq) (provider : Provider) (now : Nat) (t : String)
    (htext : req.text = some t) (hshort : wordCount t < 10) :
    create_summary store (some req) provider now
      = (store, 200, Body.errorBody "this text is too short to summarize") := by
  unfold create_summary
  dsimp only
  rw [htext]
  dsimp only
  rw [if_pos hshort]

/-- Witness for the amended C2 at the two-word text "too short". -/
theorem short_text_create_returns_200_error_witness :
    create_summary [] (some ⟨some "too short", none, none, none⟩) sampleProvider 3
      = ([], 200, Body.errorBody "this text is too short to summarize") :=
  short_text_create_returns_200_error [] ⟨some "too short", none, none, none⟩ sampleProvider 3
    "too short" rfl (by decide)

/-- C3: when an update request on an existing record supplies a text and the
provider call fails, the handler returns 500 with the failure description and
the store is returned untouched, so no field of the record — title and
`updated_at` included — is committed, even if a new title was supplied. -/
theorem update_provider_failure_leaves_record_unchanged
    (store : List Summary) (summary_id : Nat) (data : UpdateReq) (provider : Provider)
    (now : Nat) (s : Summary) (t e : String)
    (hfind : store.find? (fun r => r.id == summary_id) = some s)
    (htext : data.text = some t)
    (hprov : provider t (data.max_length.getD 130) (data.min_length.getD 30) = Except.error e) :
    update_summary store summary_id data provider now = (store, 500, Body.errorBody e) := by
  unfold update_summary
  rw [hfind]
  dsimp only
  rw [htext]
  dsimp only
  rw [hprov]

/-- Witness for C3: a failing provider on an update that also supplies a new
title leaves the one-record store exactly as it was. -/
theorem update_provider_failure_leaves_record_unchanged_witness :
    update_summary [sampleRec] 1 ⟨some sampleText, some "A New Title", none, none⟩
        failProvider 9
      = ([sampleRec], 500, Body.errorBody "CUDA out of memory") :=
  update_provider_failure_leaves_record_unchanged [sampleRec] 1
    ⟨some sampleText, some "A New Title", none, none⟩ failProvider 9 sampleRec
    sampleText "CUDA out of memory" (by decide) rfl rfl

/-- C4: an update that supplies only a title stores a record with unchanged
`summary_text`, `original_text` and `compression_ratio`, while `updated_at`
is refreshed to the strictly later current time. -/
theorem update_title_only_frame
    (store : List Summary) (summary_id : Nat) (data : UpdateReq) (provider : Provider)
    (now : Nat) (s : Summary) (ti : String)
    (hfind : store.find? (fun r => r.id == summary_id) = some s)
    (htext : data.text = none) (htitle : data.title = some ti)
    (hnow : s.updated_at < now) :
    update_summary store summary_id data provider now
      = (store.map (fun r => if r.id == summary_id then { s with title := ti, updated_at := now } else r),
         200, Body.recordBody { s with title := ti, updated_at := now })
    ∧ ({ s with title := ti, updated_at := now } : Summary).summary_text = s.summary_text
    ∧ ({ s with title := ti, updated_at := now } : Summary).original_text = s.original_text
    ∧ ({ s with title := ti, updated_at := now } : Summary).compression_ratio = s.compression_ratio
    ∧ s.updated_at < ({ s with title := ti, updated_at := now } : Summary).updated_at := by
  refine ⟨?_, rfl, rfl, rfl, hnow⟩
  unfold update_summary
  rw [hfind]
  dsimp only
  rw [htext]
  dsimp only
  rw [htitle]

/-- Witness for C4: updating only the title of `sampleRec` at time 9 keeps
the text fields and the ratio, and moves `updated_at` from 5 to 9. -/
theorem update_title_only_frame_witness :
    update_summary [sampleRec] 1 ⟨none, some "A New Title", none, none⟩ sampleProvider 9
      = ([{ sampleRec with title := "A New Title", updated_at := 9 }],
         200, Body.recordBody { sampleRec with title := "A New Title", updated_at := 9 })
    ∧ ({ sampleRec with title := "A New Title", updated_at := 9 } : Summary).summary_text
        = sampleRec.summary_text
    ∧ ({ sampleRec with title := "A New Title", updated_at := 9 } : Summary).original_text
        = sampleRec.original_text
    ∧ ({ sampleRec with title := "A New Title", updated_at := 9 } : Summary).compression_ratio
        = sampleRec.compression_ratio
    ∧ sampleRec.updated_at
        < ({ sampleRec with title := "A New Title", updated_at := 9 } : Summary).updated_at := by
  have h := update_title_only_frame [sampleRec] 1 ⟨none, some "A New Title", none, none⟩
    sampleProvider 9 sampleRec "A New Title" (by decide) rfl rfl (by decide)
  simpa using h

/-- A create whose text has at least 10 words and whose provider call
succeeds grows the store by exactly one record. -/
theorem create_success_length
    (store : List Summary) (req : CreateReq) (provider : Provider) (now : Nat) (t : String)
    (htext : req.text = some t) (hwc : 10 ≤ wordCount t)
    (hprov : ∀ t2 a b, ∃ g, provider t2 a b = Except.ok g) :
    ((create_summary store (some req) provider now).1).length = store.length + 1 := by
  unfold create_summary
  dsimp only
  rw [htext]
  dsimp only
  rw [if_neg (by omega)]
  obtain ⟨g, hg⟩ := hprov t (req.max_length.getD 130) (req.min_length.getD 30)
  rw [hg]
  dsimp only
  rw [if_neg (by omega)]
  simp

/-- C5: the listing is a permutation of the store (every persisted record
appears exactly once) sorted by `created_at` descending; and running N creates
that all succeed grows the listing by exactly N records. -/
theorem list_returns_all_sorted_desc :
    (∀ store : List Summary,
      (get_summaries store).Perm store ∧ List.Sorted createdDesc (get_summaries store)) ∧
    (∀ (store : List Summary) (reqs : List (CreateReq × Nat)) (provider : Provider),
      (∀ t a b, ∃ g, provider t a b = Except.ok g) →
      (∀ rq ∈ reqs, ∃ t, rq.1.text = some t ∧ 10 ≤ wordCount t) →
      (get_summaries (runCreates store reqs provider)).length
        = store.length + reqs.length) := by
  constructor
  · intro store
    exact ⟨List.perm_insertionSort createdDesc store,
           List.sorted_insertionSort createdDesc store⟩
  · intro store reqs provider hprov
    induction reqs generalizing store with
    | nil =>
      intro _
      simp [runCreates, get_summaries]
    | cons rq rest ih =>
      intro hreqs
      obtain ⟨t, htext, hwc⟩ := hreqs rq (List.mem_cons_self rq rest)
      have hrest : ∀ x ∈ rest, ∃ t2, x.1.text = some t2 ∧ 10 ≤ wordCount t2 :=
        fun x hx => hreqs x (List.mem_cons_of_mem rq hx)
      have hstep := create_success_length store rq.1 provider rq.2 t htext hwc hprov
      have hrun : runCreates store (rq :: rest) provider
          = runCreates ((create_summary store (some rq.1) provider rq.2).1) rest provider := by
        simp [runCreates]
      rw [hrun, ih _ hrest, hstep, List.length_cons]
      omega

/-- Witness for C5: sorting a concrete two-record store, and two concrete
successful creates from the empty store yield a two-record listing. -/
theorem list_returns_all_sorted_desc_witness :
    ((get_summaries [sampleRec, sampleRec2]).Perm [sampleRec, sampleRec2]
      ∧ List.Sorted createdDesc (get_summaries [sampleRec, sampleRec2]))
    ∧ (get_summaries (runCreates []
        [(⟨some sampleText, none, none, none⟩, 5), (⟨some sampleText, none, none, none⟩, 7)]
        sampleProvider)).length
      = List.length ([] : List Summary)
        + List.length [((⟨some sampleText, none, none, none⟩ : CreateReq), 5),
                       (⟨some sampleText, none, none, none⟩, 7)] := by
  constructor
  · exact list_returns_all_sorted_desc.1 [sampleRec, sampleRec2]
  · refine list_returns_all_sorted_desc.2 []
      [(⟨some sampleText, none, none, none⟩, 5), (⟨some sampleText, none, none, none⟩, 7)]
      sampleProvider (fun t a b => ⟨"a much shorter generated summary", rfl⟩) ?_
    intro rq hrq
    simp only [List.mem_cons, List.not_mem_nil, or_false] at hrq
    refine ⟨sampleText, ?_, by decide⟩
    rcases hrq with h | h <;> rw [h]

/-- C6: fetching or deleting an id absent from the store answers 404 and, for
delete, leaves the store untouched; and after any delete of an id a fetch of
that id answers 404. -/
theorem absent_id_not_found_and_delete_then_get :
    (∀ (store : List Summary) (summary_id : Nat),
      store.find? (fun r => r.id == summary_id) = none →
        get_summary store summary_id = (404, Body.errorBody "Not Found")
      ∧ delete_summary store summary_id = (store, 404, Body.errorBody "Not Found")) ∧
    (∀ (store : List Summary) (summary_id : Nat),
      (get_summary (delete_summary store summary_id).1 summary_id).1 = 404) := by
  constructor
  · intro store summary_id hfind
    constructor
    · unfold get_summary
      rw [hfind]
    · unfold delete_summary
      rw [hfind]
  · intro store summary_id
    cases hfind : store.find? (fun r => r.id == summary_id) with
    | none =>
      unfold delete_summary
      rw [hfind]
      unfold get_summary
      rw [hfind]
    | some s =>
      unfold delete_summary
      rw [hfind]
      dsimp only
      unfold get_summary
      have hnone : (store.filter (fun r => !(r.id == summary_id))).find?
          (fun r => r.id == summary_id) = none := by
        rw [List.find?_eq_none]
        intro x hx
        have := (List.mem_filter.mp hx).2
        simpa using this
      rw [hnone]

/-- Witness for C6: fetching and deleting the absent id 2 in a one-record
store answers 404, and a fetch right after deleting id 1 answers 404. -/
theorem absent_id_not_found_and_delete_then_get_witness :
    (get_summary [sampleRec] 2 = (404, Body.errorBody "Not Found")
      ∧ delete_summary [sampleRec] 2 = ([sampleRec], 404, Body.errorBody "Not Found"))
    ∧ (get_summary (delete_summary [sampleRec] 1).1 1).1 = 404 :=
  ⟨absent_id_not_found_and_delete_then_get.1 [sampleRec] 2 (by decide),
   absent_id_not_found_and_delete_then_get.2 [sampleRec] 1⟩

/-- C7: the health check returns HTTP 200 for every probe outcome, echoes the
model and accelerated-compute booleans, and reports store connectivity as a
boolean that is true exactly when the `SELECT 1` round trip succeeded — a
probe failure is caught, never propagated. -/
theorem health_check_always_200_reports_booleans :
    ∀ (dbProbe : Except String Unit) (ml gpu : Bool),
      (health_check dbProbe ml gpu).1 = 200
      ∧ (health_check dbProbe ml gpu).2.model_loaded = ml
      ∧ (health_check dbProbe ml gpu).2.gpu_available = gpu
      ∧ ((health_check dbProbe ml gpu).2.database_connected = true
          ↔ ∃ u, dbProbe = Except.ok u) := by
  intro dbProbe ml gpu
  cases dbProbe <;> simp [health_check]

/-- C10: the health check's `status` field is the constant string "healthy"
whatever the probe outcome and the two booleans are. -/
theorem health_status_always_healthy :
    ∀ (dbProbe : Except String Unit) (ml gpu : Bool),
      (health_check dbProbe ml gpu).2.status = "healthy" := by
  intro dbProbe ml gpu
  cases dbProbe <;> rfl

/-- C9: update applies no minimum-word-count validation: any replacement text
with between 1 and 9 words is accepted, stored, and its ratio recomputed; a
replacement text with zero words makes the ratio computation divide by zero,
surfaced as a 500 with the record unchanged. -/
theorem update_no_min_word_check_and_zero_word_500 :
    (∀ store summary_id data (provider : Provider) now s t gen,
      store.find? (fun r => r.id == summary_id) = some s →
      data.text = some t →
      provider t (data.max_length.getD 130) (data.min_length.getD 30) = Except.ok gen →
      1 ≤ wordCount t → wordCount t < 10 →
      ∃ s3, update_summary store summary_id data provider now
          = (store.map (fun r => if r.id == summary_id then s3 else r),
             200, Body.recordBody s3)
        ∧ s3.original_text = t ∧ s3.summary_text = gen
        ∧ s3.compression_ratio
            = round2 ((wordCount gen : ℚ) / (wordCount t : ℚ) * 100)) ∧
    (∀ store summary_id data (provider : Provider) now s t gen,
      store.find? (fun r => r.id == summary_id) = some s →
      data.text = some t →
      provider t (data.max_length.getD 130) (data.min_length.getD 30) = Except.ok gen →
      wordCount t = 0 →
      update_summary store summary_id data provider now
        = (store, 500, Body.errorBody "division by zero")) := by
  constructor
  · intro store summary_id data provider now s t gen hfind htext hprov h1 h10
    unfold update_summary
    rw [hfind]
    dsimp only
    rw [htext]
    dsimp only
    rw [hprov]
    dsimp only
    rw [if_neg (by omega)]
    cases htitle : data.title with
    | none =>
      dsimp only
      exact ⟨_, rfl, rfl, rfl, by rw [← ratioPct_eq_div]⟩
    | some ti =>
      dsimp only
      exact ⟨_, rfl, rfl, rfl, by rw [← ratioPct_eq_div]⟩
  · intro store summary_id data provider now s t gen hfind htext hprov hz
    unfold update_summary
    rw [hfind]
    dsimp only
    rw [htext]
    dsimp only
    rw [hprov]
    dsimp only
    rw [if_pos hz]

/-- Witness for C9: a three-word replacement text is accepted and its ratio
recomputed; an empty replacement text yields the 500 division-by-zero error
with the store unchanged. -/
theorem update_no_min_word_check_and_zero_word_500_witness :
    (∃ s3, update_summary [sampleRec] 1 ⟨some "few words here", none, none, none⟩
          sampleProvider 9
        = ([sampleRec].map (fun r => if r.id == 1 then s3 else r),
           200, Body.recordBody s3)
      ∧ s3.original_text = "few words here"
      ∧ s3.summary_text = "a much shorter generated summary"
      ∧ s3.compression_ratio
          = round2 ((wordCount "a much shorter generated summary" : ℚ)
              / (wordCount "few words here" : ℚ) * 100))
    ∧ update_summary [sampleRec] 1 ⟨some "", none, none, none⟩ sampleProvider 9
        = ([sampleRec], 500, Body.errorBody "division by zero") :=
  ⟨update_no_min_word_check_and_zero_word_500.1 [sampleRec] 1
      ⟨some "few words here", none, none, none⟩ sampleProvider 9 sampleRec
      "few words here" "a much shorter generated summary"
      (by decide) rfl rfl (by decide) (by decide),
   update_no_min_word_check_and_zero_word_500.2 [sampleRec] 1
      ⟨some "", none, none, none⟩ sampleProvider 9 sampleRec
      "" "a much shorter generated summary"
      (by decide) rfl rfl (by decide)⟩

/-- Any member of a list of naturals is bounded by its right fold with max. -/
theorem mem_le_foldr_max {l : List Nat} {a : Nat} (h : a ∈ l) :
    a ≤ l.foldr max 0 := by
  induction l with
  | nil => cases h
  | cons b t ih =>
    simp only [List.foldr_cons]
    rcases List.mem_cons.mp h with rfl | h2
    · exact Nat.le_max_left _ _
    · exact Nat.le_trans (ih h2) (Nat.le_max_right _ _)

/-- The freshly assigned id is strictly larger than every stored id. -/
theorem nextId_gt {store : List Summary} {r : Summary} (h : r ∈ store) :
    r.id < nextId store := by
  unfold nextId
  have hle : r.id ≤ (store.map (fun x => x.id)).foldr max 0 :=
    mem_le_foldr_max (List.mem_map_of_mem _ h)
  omega

/-- Distinct stored ids identify records. -/
theorem id_inj {store : List Summary}
    (hnodup : (store.map (fun r => r.id)).Nodup)
    {x y : Summary} (hx : x ∈ store) (hy : y ∈ store) (hid : x.id = y.id) : x = y :=
  List.inj_on_of_nodup_map hnodup hx hy hid

/-- Growing the clock preserves the store invariant. -/
theorem storeInv_mono {T T2 : Nat} {store : List Summary} (hT : T ≤ T2)
    (h : StoreInv T store) : StoreInv T2 store :=
  ⟨h.1, fun r hr => ⟨(h.2 r hr).1, Nat.le_trans (h.2 r hr).2 hT⟩⟩

/-- A committed update (some record at `summary_id` replaced by `s3`, which
keeps the id and creation time and stamps `updated_at := now`) preserves the
store invariant. -/
theorem storeInv_commit {T now summary_id : Nat} {store : List Summary} {s s3 : Summary}
    (hinv : StoreInv T store) (hT : T ≤ now)
    (hfind : store.find? (fun r => r.id == summary_id) = some s)
    (hid : s3.id = s.id) (hca : s3.created_at = s.created_at) (hua : s3.updated_at = now) :
    StoreInv now (store.map (fun r => if r.id == summary_id then s3 else r)) := by
  have hsid : s.id = summary_id := find?_id_eq hfind
  have hs : s ∈ store := List.mem_of_find?_eq_some hfind
  constructor
  · have hids : (store.map (fun r => if r.id == summary_id then s3 else r)).map (fun r => r.id)
        = store.map (fun r => r.id) := by
      rw [List.map_map]
      apply List.map_congr_left
      intro r hr
      by_cases h : r.id = summary_id
      · simp [h, hid, hsid]
      · simp [h]
    rw [hids]
    exact hinv.1
  · intro r' hr'
    obtain ⟨x, hx, hgx⟩ := List.mem_map.mp hr'
    by_cases h : x.id = summary_id
    · have hr3 : r' = s3 := by rw [← hgx]; simp [h]
      subst hr3
      have hb := hinv.2 s hs
      refine ⟨?_, by rw [hua]⟩
      rw [hca, hua]
      exact Nat.le_trans hb.1 (Nat.le_trans hb.2 hT)
    · have hr3 : r' = x := by rw [← hgx]; simp [h]
      rw [hr3]
      exact ⟨(hinv.2 x hx).1, Nat.le_trans (hinv.2 x hx).2 hT⟩

/-- Create preserves the store invariant. -/
theorem storeInv_create {T : Nat} {store : List Summary} (data : Option CreateReq)
    (provider : Provider) {now : Nat} (hinv : StoreInv T store) (hT : T ≤ now) :
    StoreInv now (create_summary store data provider now).1 := by
  cases data with
  | none => exact storeInv_mono hT hinv
  | some req =>
    unfold create_summary
    dsimp only
    cases htext : req.text with
    | none => exact storeInv_mono hT hinv
    | some t =>
      dsimp only
      by_cases hshort : wordCount t < 10
      · rw [if_pos hshort]
        exact storeInv_mono hT hinv
      · rw [if_neg hshort]
        cases hprov : provider t (req.max_length.getD 130) (req.min_length.getD 30) with
        | error e => exact storeInv_mono hT hinv
        | ok gen =>
          dsimp only
          rw [if_neg (by omega)]
          dsimp only
          constructor
          · rw [List.map_append]
            refine List.Nodup.append hinv.1 (List.nodup_singleton _) ?_
            intro a ha hb
            simp only [List.map_cons, List.map_nil, List.mem_singleton] at hb
            subst hb
            obtain ⟨r, hr, hid⟩ := List.mem_map.mp ha
            have := nextId_gt hr
            omega
          · intro r hr
            rcases List.mem_append.mp hr with h1 | h2
            · exact ⟨(hinv.2 r h1).1, Nat.le_trans (hinv.2 r h1).2 hT⟩
            · simp only [List.mem_singleton] at h2
              subst h2
              exact ⟨Nat.le_refl _, Nat.le_refl _⟩

/-- Update preserves the store invariant. -/
theorem storeInv_update {T : Nat} {store : List Summary} (summary_id : Nat)
    (data : UpdateReq) (provider : Provider) {now : Nat}
    (hinv : StoreInv T store) (hT : T ≤ now) :
    StoreInv now (update_summary store summary_id data provider now).1 := by
  unfold update_summary
  cases hfind : store.find? (fun r => r.id == summary_id) with
  | none => exact storeInv_mono hT hinv
  | some s =>
    dsimp only
    cases htext : data.text with
    | none =>
      dsimp only
      cases htitle : data.title with
      | none => exact storeInv_commit hinv hT hfind rfl rfl rfl
      | some ti => exact storeInv_commit hinv hT hfind rfl rfl rfl
    | some t =>
      dsimp only
      cases hprov : provider t (data.max_length.getD 130) (data.min_length.getD 30) with
      | error e => exact storeInv_mono hT hinv
      | ok gen =>
        dsimp only
        by_cases hz : wordCount t = 0
        · rw [if_pos hz]
          exact storeInv_mono hT hinv
        · rw [if_neg hz]
          dsimp only
          cases htitle : data.title with
          | none => exact storeInv_commit hinv hT hfind rfl rfl rfl
          | some ti => exact storeInv_commit hinv hT hfind rfl rfl rfl

/-- Delete preserves the store invariant. -/
theorem storeInv_delete {T : Nat} {store : List Summary} (summary_id : Nat)
    {now : Nat} (hinv : StoreInv T store) (hT : T ≤ now) :
    StoreInv now (delete_summary store summary_id).1 := by
  unfold delete_summary
  cases hfind : store.find? (fun r => r.id == summary_id) with
  | none => exact storeInv_mono hT hinv
  | some s =>
    dsimp only
    constructor
    · have hsub : List.Sublist
          ((store.filter (fun r => !(r.id == summary_id))).map (fun r => r.id))
          (store.map (fun r => r.id)) :=
        (List.filter_sublist store).map _
      exact hinv.1.sublist hsub
    · intro r hr
      have hmem := List.mem_of_mem_filter hr
      exact ⟨(hinv.2 r hmem).1, Nat.le_trans (hinv.2 r hmem).2 hT⟩

/-- Every request preserves the store invariant. -/
theorem storeInv_applyOp {T now : Nat} {store : List Summary} (op : Op)
    (provider : Provider) (hinv : StoreInv T store) (hT : T ≤ now) :
    StoreInv now (applyOp provider store op now) := by
  cases op with
  | createOp d => exact storeInv_create d provider hinv hT
  | updateOp i d => exact storeInv_update i d provider hinv hT
  | deleteOp i => exact storeInv_delete i hinv hT

/-- Every reachable store state satisfies the store invariant. -/
theorem reachable_storeInv {T : Nat} {store : List Summary}
    (h : Reachable T store) : StoreInv T store := by
  induction h with
  | init => exact ⟨List.nodup_nil, fun r hr => absurd hr (List.not_mem_nil r)⟩
  | step op provider now hre hle ih => exact storeInv_applyOp op provider ih hle

/-- When every surviving record is drawn from the old store, creation times
are matched through ids. -/
theorem created_at_of_mem_sub {store sub : List Summary}
    (hnodup : (store.map (fun r => r.id)).Nodup)
    (hsub : ∀ x ∈ sub, x ∈ store) :
    ∀ r ∈ store, ∀ r' ∈ sub, r'.id = r.id → r'.created_at = r.created_at :=
  fun r hr r' hr' hid => by rw [id_inj hnodup (hsub r' hr') hr hid]

/-- A committed update never changes the creation time of any record. -/
theorem commit_preserves_created_at {summary_id : Nat} {store : List Summary} {s s3 : Summary}
    (hnodup : (store.map (fun r => r.id)).Nodup)
    (hfind : store.find? (fun r => r.id == summary_id) = some s)
    (hid : s3.id = s.id) (hca : s3.created_at = s.created_at) :
    ∀ r ∈ store, ∀ r' ∈ store.map (fun r => if r.id == summary_id then s3 else r),
      r'.id = r.id → r'.created_at = r.created_at := by
  intro r hr r' hr' hid2
  obtain ⟨x, hx, hgx⟩ := List.mem_map.mp hr'
  have hs : s ∈ store := List.mem_of_find?_eq_some hfind
  by_cases h : x.id = summary_id
  · have hr3 : r' = s3 := by rw [← hgx]; simp [h]
    subst hr3
    have hrs : r = s := id_inj hnodup hr hs (by rw [← hid2, hid])
    subst hrs
    exact hca
  · have hr3 : r' = x := by rw [← hgx]; simp [h]
    subst hr3
    rw [id_inj hnodup hx hr hid2]

/-- One request never changes the creation time of a record that survives it. -/
theorem applyOp_preserves_created_at {T : Nat} {store : List Summary}
    (hinv : StoreInv T store) (op : Op) (provider : Provider) (now : Nat) :
    ∀ r ∈ store, ∀ r' ∈ applyOp provider store op now,
      r'.id = r.id → r'.created_at = r.created_at := by
  cases op with
  | createOp d =>
    show ∀ r ∈ store, ∀ r' ∈ (create_summary store d provider now).1, _
    cases d with
    | none => exact created_at_of_mem_sub hinv.1 (fun x hx => hx)
    | some req =>
      unfold create_summary
      dsimp only
      cases htext : req.text with
      | none => exact created_at_of_mem_sub hinv.1 (fun x hx => hx)
      | some t =>
        dsimp only
        by_cases hshort : wordCount t < 10
        · rw [if_pos hshort]
          exact created_at_of_mem_sub hinv.1 (fun x hx => hx)
        · rw [if_neg hshort]
          cases hprov : provider t (req.max_length.getD 130) (req.min_length.getD 30) with
          | error e => exact created_at_of_mem_sub hinv.1 (fun x hx => hx)
          | ok gen =>
            dsimp only
            rw [if_neg (by omega)]
            dsimp only
            intro r hr r' hr' hid2
            rcases List.mem_append.mp hr' with h1 | h2
            · exact created_at_of_mem_sub hinv.1 (fun x hx => hx) r hr r' h1 hid2
            · simp only [List.mem_singleton] at h2
              subst h2
              have hgt := nextId_gt hr
              rw [← hid2] at hgt
              exact absurd hgt (Nat.lt_irrefl (nextId store))
  | updateOp summary_id data =>
    show ∀ r ∈ store, ∀ r' ∈ (update_summary store summary_id data provider now).1, _
    unfold update_summary
    cases hfind : store.find? (fun r => r.id == summary_id) with
    | none => exact created_at_of_mem_sub hinv.1 (fun x hx => hx)
    | some s =>
      dsimp only
      cases htext : data.text with
      | none =>
        dsimp only
        cases htitle : data.title with
        | none => exact commit_preserves_created_at hinv.1 hfind rfl rfl
        | some ti => exact commit_preserves_created_at hinv.1 hfind rfl rfl
      | some t =>
        dsimp only
        cases hprov : provider t (data.max_length.getD 130) (data.min_length.getD 30) with
        | error e => exact created_at_of_mem_sub hinv.1 (fun x hx => hx)
        | ok gen =>
          dsimp only
          by_cases hz : wordCount t = 0
          · rw [if_pos hz]
            exact created_at_of_mem_sub hinv.1 (fun x hx => hx)
          · rw [if_neg hz]
            dsimp only
            cases htitle : data.title with
            | none => exact commit_preserves_created_at hinv.1 hfind rfl rfl
            | some ti => exact commit_preserves_created_at hinv.1 hfind rfl rfl
  | deleteOp summary_id =>
    show ∀ r ∈ store, ∀ r' ∈ (delete_summary store summary_id).1, _
    unfold delete_summary
    cases hfind : store.find? (fun r => r.id == summary_id) with
    | none => exact created_at_of_mem_sub hinv.1 (fun x hx => hx)
    | some s =>
      dsimp only
      exact created_at_of_mem_sub hinv.1 (fun x hx => List.mem_of_mem_filter hx)

/-- C8: in every reachable store state the invariant
`created_at ≤ updated_at` holds for every record, and no request — create,
update or delete, at any later time — changes the creation time of a record
that survives it: `created_at` is set once at creation and never modified. -/
theorem created_at_set_once_and_updated_at_ge
    (T : Nat) (store : List Summary) (h : Reachable T store) :
    (∀ r ∈ store, r.created_at ≤ r.updated_at) ∧
    (∀ (op : Op) (provider : Provider) (now : Nat),
      ∀ r ∈ store, ∀ r' ∈ applyOp provider store op now,
        r'.id = r.id → r'.created_at = r.created_at) := by
  have hinv := reachable_storeInv h
  exact ⟨fun r hr => (hinv.2 r hr).1,
         fun op provider now => applyOp_preserves_created_at hinv op provider now⟩

/-- Witness for C8 on a concrete reachable state: one create at time 5 makes
the one-record store `[sampleRec]`, whose timestamps are ordered; updating its
title at time 9 keeps its creation time. -/
theorem created_at_set_once_and_updated_at_ge_witness :
    (∀ r ∈ [sampleRec], r.created_at ≤ r.updated_at) ∧
    (∀ r ∈ [sampleRec],
      ∀ r' ∈ applyOp sampleProvider [sampleRec]
          (Op.updateOp 1 ⟨none, some "A New Title", none, none⟩) 9,
        r'.id = r.id → r'.created_at = r.created_at) := by
  have hstep : applyOp sampleProvider []
      (Op.createOp (some ⟨some sampleText, none, none, none⟩)) 5 = [sampleRec] := by
    decide
  have hreach : Reachable 5 [sampleRec] := by
    have h0 := Reachable.step
      (Op.createOp (some ⟨some sampleText, none, none, none⟩)) sampleProvider 5
      Reachable.init (Nat.zero_le 5)
    rwa [hstep] at h0
  have h := created_at_set_once_and_updated_at_ge 5 [sampleRec] hreach
  exact ⟨h.1, h.2 (Op.updateOp 1 ⟨none, some "A New Title", none, none⟩) sampleProvider 9⟩

end TextSummarizer
